import Mathlib

/-!
# Encodarr controller: dispatch and liveness engine

A shallow embedding of the controller code of `krzemienski/encodarr`:

* `controller/job_health/job_health.go` : `Checker.Run`
* `controller/runnercommunicator/runner_http_api_v1.go` : `NewJob`, `NullifyUUIDs`,
  `requestJob`, `jobStatus`, `jobComplete`
* `controller/controller/controller.go` : `fileSystemCheck`

Conventions.  A `time.Time` is an integer number of nanoseconds since the Unix epoch and
a `time.Duration` an integer number of nanoseconds; `time.Since t` is `now - t` for the
instant `now` at which the call runs.  Interfaces whose implementations live outside the
translated files (`RunnerCommunicatorDataStorer`, `json.Unmarshal`, the file system) are
parameters of the functions that use them.  Logging has no effect on any state that is
modelled and is left out.
-/

set_option autoImplicit false

namespace Encodarr

/-! ## Data model -/

/-- The type `controller.UUID`: an opaque identifier compared with `==`. -/
abbrev UUID := String

/-- A `time.Time`, in nanoseconds since the Unix epoch (`time.Unix(0, 0)` is `0`). -/
abbrev Time := Int

/-- A `time.Duration`, in nanoseconds. -/
abbrev Duration := Int

/-- A byte string. -/
abbrev Bytes := List Nat

/-- The struct `JobStatus`, with the fields the status literal of `jobRequestHandler`
names. -/
structure JobStatus where
  Stage : String
  Percentage : String
  JobElapsedTime : String
  FPS : String
  StageElapsedTime : String
  StageEstimatedTimeRemaining : String
deriving DecidableEq, Repr

/-- The Go zero value `controller.JobStatus{}`: every string field is empty. -/
def JobStatus.zero : JobStatus :=
  { Stage := "", Percentage := "", JobElapsedTime := "", FPS := "",
    StageElapsedTime := "", StageEstimatedTimeRemaining := "" }

/-- The struct `controller.Job`.  The code reads `UUID` and `Path`; `Command` stands for
the command parameters the Runner needs. -/
structure Job where
  UUID : UUID
  Path : String
  Command : List String
deriving DecidableEq, Repr

/-- The Go zero value `controller.Job{}`. -/
def Job.zero : Job := { UUID := "", Path := "", Command := [] }

/-- The struct `controller.DispatchedJob`, with the fields of the literal in `NewJob`. -/
structure DispatchedJob where
  UUID : UUID
  Runner : String
  Job : Job
  Status : JobStatus
  LastUpdated : Time
deriving DecidableEq, Repr

/-- The struct `controller.CompletedJob`.  The handler reads `UUID` and `Failed` and writes
`InFile`; `History` is the Runner-supplied history metadata, opaque to the handlers. -/
structure CompletedJob where
  UUID : UUID
  Failed : Bool
  History : String
  InFile : String
deriving DecidableEq, Repr

/-! ## `job_health.Checker` -/

/-- The struct `Checker`.  Its `ds` and `ss` fields are interfaces; what their methods
return is passed to `Run`. -/
structure Checker where
  lastCheckTime : Time
deriving DecidableEq, Repr

/-- `NewChecker`: the last check time starts at the Unix epoch. -/
def NewChecker : Checker := { lastCheckTime := 0 }

/-- `Checker.Run`, at the instant `now`.  `HealthCheckInterval` and `HealthCheckTimeout` are
the values `c.ss` returns, `DispatchedJobs` the slice `c.ds.DispatchedJobs()` returns.  The
result is the updated checker and `uuidsToNull`; the loop appends to the slice exactly as
the source does. -/
def Checker.Run (c : Checker) (HealthCheckInterval HealthCheckTimeout : Duration)
    (DispatchedJobs : List DispatchedJob) (now : Time) : Checker × List UUID :=
  if now - c.lastCheckTime ≥ HealthCheckInterval then
    let c1 : Checker := { c with lastCheckTime := now }
    let djs := DispatchedJobs
    (c1, djs.foldl
      (fun uuidsToNull v =>
        if now - v.LastUpdated ≥ HealthCheckTimeout then uuidsToNull ++ [v.UUID]
        else uuidsToNull)
      [])
  else
    (c, [])

/-! ## HTTP plumbing -/

/-- The constant `http.MethodGet`. -/
def MethodGet : String := "GET"

/-- The constant `http.MethodPost`. -/
def MethodPost : String := "POST"

/-- The constant `http.StatusOK`. -/
def StatusOK : Nat := 200

/-- The constant `http.StatusBadRequest`. -/
def StatusBadRequest : Nat := 400

/-- The constant `http.StatusMethodNotAllowed`. -/
def StatusMethodNotAllowed : Nat := 405

/-- The constant `http.StatusConflict`. -/
def StatusConflict : Nat := 409

/-- The constant `http.StatusGone`. -/
def StatusGone : Nat := 410

/-- The constant `http.StatusInternalServerError`. -/
def StatusInternalServerError : Nat := 500

/-- The part of an `http.Request` the handlers read.  `Header k` is `r.Header.Get(k)` (the
empty string when the header is absent), `Body` is what `io.ReadAll(r.Body)` returns
(`none` on a read error), `FormFile k` is what `r.FormFile(k)` returns (`none` on an error,
otherwise the uploaded file name and its bytes). -/
structure Request where
  Method : String
  Header : String → String
  Body : Option String
  FormFile : String → Option (String × Bytes)
  RemoteAddr : String

/-- An `http.ResponseWriter`: the header map, the status line once it has been written, and
the body written so far. -/
structure ResponseWriter where
  header : List (String × String)
  status : Option Nat
  body : Bytes
deriving DecidableEq, Repr

/-- The writer a handler is called with: nothing written yet. -/
def ResponseWriter.fresh : ResponseWriter := { header := [], status := none, body := [] }

/-- `w.WriteHeader(code)`: the first call fixes the status, later calls are ignored. -/
def ResponseWriter.WriteHeader (w : ResponseWriter) (code : Nat) : ResponseWriter :=
  match w.status with
  | none => { w with status := some code }
  | some _ => w

/-- `w.Write(b)`: writes the status line `200` first when none was written. -/
def ResponseWriter.Write (w : ResponseWriter) (b : Bytes) : ResponseWriter :=
  { w with status := some (w.status.getD StatusOK), body := w.body ++ b }

/-- `w.Header().Set(k, v)`. -/
def ResponseWriter.Set (w : ResponseWriter) (k v : String) : ResponseWriter :=
  { w with header := (w.header.filter (fun kv => kv.1 != k)) ++ [(k, v)] }

/-- The status code the client receives: `200` when the handler returns without writing
one. -/
def ResponseWriter.code (w : ResponseWriter) : Nat := w.status.getD StatusOK

/-- `json.Unmarshal` into a fresh value of type `α`: `none` when it returns an error.  The
decoder of `encoding/json` rejects empty input. -/
structure Unmarshal (α : Type) where
  decode : String → Option α
  decode_empty : decode "" = none

/-- Scan of `filepath.Ext` over the path read from its last byte backwards; `acc` holds the
bytes already passed. -/
def extScan : List Char → List Char → List Char
  | [], _ => []
  | c :: rest, acc =>
    if c = '/' then []
    else if c = '.' then '.' :: acc
    else extScan rest (c :: acc)

/-- `filepath.Ext`: the suffix of the last path element starting at its final dot, empty
when there is none. -/
def filepathExt (path : String) : String := String.mk (extScan path.data.reverse [])

/-! ## Channels -/

/-- The state of an unbuffered `chan controller.Job`. -/
inductive Chan where
  /-- Open, with no sender waiting. -/
  | idle
  /-- Open, with a sender blocked in a send of `j`. -/
  | sending (j : Job)
  /-- Closed. -/
  | closed
deriving DecidableEq, Repr

/-- The receive `v, ok = <-ch`: `none` when it would block, otherwise the value, `ok` and
the channel afterwards.  A closed channel yields the zero value and `ok = false`. -/
def Chan.recv : Chan → Option (Job × Bool × Chan)
  | .idle => none
  | .sending j => some (j, true, .idle)
  | .closed => some (Job.zero, false, .closed)

/-- The builtin `close(ch)`: closing a closed channel is a run-time panic. -/
def Chan.close : Chan → Except String Chan
  | .closed => .error "close of closed channel"
  | _ => .ok .closed

/-- How a call ends: it returns, it panics, or it blocks forever. -/
inductive Outcome (α : Type) where
  | returned (a : α)
  | panicked (msg : String)
  | blocked
deriving DecidableEq, Repr

/-! ## The runner queue and the data store -/

/-- The struct `waitingRunner`, with the fields of the literal in `requestJob`.  A channel
value is the identity of a channel; `none` is the nil channel. -/
structure waitingRunner where
  Name : String
  CallbackChan : Option Nat
  UUID : String
deriving DecidableEq, Repr

/-- The Go zero value `waitingRunner{}`. -/
def waitingRunner.zero : waitingRunner := { Name := "", CallbackChan := none, UUID := "" }

/-- Modelled from the spec: the type `queue` of the package (its declaration and its methods
`Push`, `Pop`, `Remove`, `Empty` are outside the translated files).  Section 4.1: an ordered
collection of waiting runners that preserves insertion order. -/
structure queue where
  items : List waitingRunner
deriving DecidableEq, Repr

/-- Modelled from the spec: `newQueue`, the empty queue. -/
def newQueue : queue := { items := [] }

/-- Modelled from the spec: `push(WaitingRunner)` appends. -/
def queue.Push (q : queue) (wr : waitingRunner) : queue := { items := q.items ++ [wr] }

/-- Modelled from the spec: `popOldest()` removes and returns the first entry; on an empty
queue it returns an error (here with the zero `waitingRunner`, as Go functions do). -/
def queue.Pop (q : queue) : waitingRunner × Option String × queue :=
  match q.items with
  | [] => (waitingRunner.zero, some "queue is empty", q)
  | wr :: rest => (wr, none, { items := rest })

/-- Modelled from the spec: `remove(RequestID)` deletes by id. -/
def queue.Remove (q : queue) (uuid : String) : queue :=
  { items := q.items.filter (fun wr => wr.UUID != uuid) }

/-- Modelled from the spec: `empty()`. -/
def queue.Empty (q : queue) : Bool := q.items.isEmpty

/-- The methods of the interface `controller.RunnerCommunicatorDataStorer` that the
communicator calls, over a store whose state has type `σ`.  `DispatchedJob` returns `none`
when the Go method returns an error; `SaveDispatchedJob` returns the store afterwards and
the error, if any. -/
structure RunnerCommunicatorDataStorer (σ : Type) where
  DispatchedJob : σ → UUID → Option DispatchedJob
  SaveDispatchedJob : σ → Encodarr.DispatchedJob → σ × Option String

/-- The struct `RunnerHTTPApiV1`: `ds` is the state of the data store behind the interface
value, `completedJobs` stands for the unbuffered channel: the values handed over on it to
its receiver `CompletedJobs()`, oldest first. -/
structure RunnerHTTPApiV1 (σ : Type) where
  ds : σ
  nullifiedUUIDs : List UUID
  completedJobs : List CompletedJob
  wrQueue : queue

/-- `NewRunnerHTTPApiV1`. -/
def NewRunnerHTTPApiV1 {σ : Type} (ds : σ) : RunnerHTTPApiV1 σ :=
  { ds := ds, nullifiedUUIDs := [], completedJobs := [], wrQueue := newQueue }

/-- What a handler can change: the communicator and the files the controller has created
with `os.Create` (name and content, oldest first). -/
structure World (σ : Type) where
  api : RunnerHTTPApiV1 σ
  created : List (String × Bytes)

/-- The struct `incomingJobStatus`. -/
structure incomingJobStatus where
  UUID : UUID
  Status : JobStatus
deriving DecidableEq, Repr

/-! ## `RunnerHTTPApiV1` -/

/-- `RunnerHTTPApiV1.NewJob`, at the instant `now`.  The result is the communicator
afterwards and the channel send `wr.CallbackChan <- cJob` that ends the function, as the
channel and the value sent (a send on the nil channel blocks forever).  Both errors are
only logged. -/
def NewJob {σ : Type} (DS : RunnerCommunicatorDataStorer σ) (now : Time)
    (r : RunnerHTTPApiV1 σ) (cJob : Job) : RunnerHTTPApiV1 σ × (Option Nat × Job) :=
  let (wr, _err, q) := r.wrQueue.Pop
  let dJob : DispatchedJob :=
    { UUID := cJob.UUID
      Runner := wr.Name
      Job := cJob
      Status := JobStatus.zero
      LastUpdated := now }
  let (ds, _err) := DS.SaveDispatchedJob r.ds dJob
  ({ r with wrQueue := q, ds := ds }, (wr.CallbackChan, cJob))

/-- `RunnerHTTPApiV1.NeedNewJob`. -/
def NeedNewJob {σ : Type} (r : RunnerHTTPApiV1 σ) : Bool := !r.wrQueue.Empty

/-- `RunnerHTTPApiV1.NullifyUUIDs`. -/
def NullifyUUIDs {σ : Type} (r : RunnerHTTPApiV1 σ) (uuids : List UUID) : RunnerHTTPApiV1 σ :=
  { r with nullifiedUUIDs := r.nullifiedUUIDs ++ uuids }

/-- The loop `for _, v := range a.nullifiedUUIDs { if v == uuid { ...; return } }` of both
handlers: whether it reaches the `return`. -/
def nullifiedLoop : List UUID → UUID → Bool
  | [], _ => false
  | v :: rest, uuid => if v == uuid then true else nullifiedLoop rest uuid

/-- `RunnerHTTPApiV1.jobStatus`, at the instant `now`. -/
def jobStatus {σ : Type} (DS : RunnerCommunicatorDataStorer σ)
    (jsonUnmarshal : Unmarshal incomingJobStatus) (now : Time)
    (a : World σ) (r : Request) : World σ × ResponseWriter :=
  let w := ResponseWriter.fresh
  if r.Method = MethodPost then
    match r.Body with
    | none => (a, w.WriteHeader StatusBadRequest)
    | some b =>
      match jsonUnmarshal.decode b with
      | none => (a, w.WriteHeader StatusBadRequest)
      | some ijs =>
        if nullifiedLoop a.api.nullifiedUUIDs ijs.UUID then
          (a, w.WriteHeader StatusConflict)
        else
          match DS.DispatchedJob a.api.ds ijs.UUID with
          | none => (a, w.WriteHeader StatusInternalServerError)
          | some dJob =>
            let dJob := { dJob with Status := ijs.Status }
            let dJob := { dJob with LastUpdated := now }
            match DS.SaveDispatchedJob a.api.ds dJob with
            | (ds, some _err) =>
              ({ a with api := { a.api with ds := ds } }, w.WriteHeader StatusInternalServerError)
            | (ds, none) =>
              ({ a with api := { a.api with ds := ds } }, w.WriteHeader StatusOK)
  else
    (a, w.WriteHeader StatusMethodNotAllowed)

/-- The effect of `os.Create(name)` followed by `io.Copy(f, fileReader)` and `f.Close()` on
the created files: `name` now holds `content`. -/
def writeFile (created : List (String × Bytes)) (name : String) (content : Bytes) :
    List (String × Bytes) :=
  created.filter (fun f => f.1 != name) ++ [(name, content)]

/-- `RunnerHTTPApiV1.jobComplete`.  `osCreate name` tells whether `os.Create(name)`
succeeds.  The channel `completedJobs` is unbuffered, so the send `a.completedJobs <- cJob`
completes only when `CompletedJobs()` receives the value; `drained` tells whether that
happens while the handler waits in the send.  If it does, the value joins the values
handed over and the handler goes on to its answer; if it does not, the handler stays
blocked in the send and no response is written (`none`). -/
def jobComplete {σ : Type} (jsonUnmarshal : Unmarshal CompletedJob) (osCreate : String → Bool)
    (drained : Bool) (a : World σ) (r : Request) : World σ × Option ResponseWriter :=
  let w := ResponseWriter.fresh
  if r.Method = MethodPost then
    let h := r.Header "X-Encodarr-History-Entry"
    if h = "" then
      (a, some (w.WriteHeader StatusBadRequest))
    else
      match jsonUnmarshal.decode h with
      | none => (a, some (w.WriteHeader StatusInternalServerError))
      | some cJob =>
        if nullifiedLoop a.api.nullifiedUUIDs cJob.UUID then
          (a, some (w.WriteHeader StatusConflict))
        else if !cJob.Failed then
          match r.FormFile "file" with
          | none => (a, some (w.WriteHeader StatusBadRequest))
          | some (filename, content) =>
            let cJob := { cJob with InFile := cJob.UUID ++ ".import" ++ filepathExt filename }
            if osCreate cJob.InFile then
              let a := { a with created := writeFile a.created cJob.InFile content }
              if drained then
                ({ a with api := { a.api with completedJobs := a.api.completedJobs ++ [cJob] } },
                 some (w.WriteHeader StatusOK))
              else
                (a, none)
            else
              (a, some (w.WriteHeader StatusInternalServerError))
        else if drained then
          ({ a with api := { a.api with completedJobs := a.api.completedJobs ++ [cJob] } },
           some (w.WriteHeader StatusOK))
        else
          (a, none)
  else
    (a, some (w.WriteHeader StatusMethodNotAllowed))

/-- Modelled from the spec: the declaration of `controller.CompletedJob`, with the JSON tags
that decide which fields `json.Unmarshal` fills, is outside the translated files.  Section 3
makes `InFile` the path the controller chose for the received output, not a part of the
Runner-supplied history entry: decoding an entry leaves `InFile` at its zero value. -/
def leavesInFileEmpty (jsonUnmarshal : Unmarshal CompletedJob) : Prop :=
  ∀ h cJob, jsonUnmarshal.decode h = some cJob → cJob.InFile = ""

/-- What `os.Open` hands back: the chunks successive `file.Read(buffer)` calls return, and
whether the read after the last chunk fails with an error other than `io.EOF`. -/
structure OpenFile where
  reads : List Bytes
  readError : Bool
deriving DecidableEq, Repr

/-- The read loop at the end of `requestJob`. -/
def streamFile (w : ResponseWriter) : List Bytes → Bool → ResponseWriter
  | [], readError => if readError then w.WriteHeader StatusInternalServerError else w
  | chunk :: rest, readError => streamFile (w.Write chunk) rest readError

/-- `RunnerHTTPApiV1.requestJob` up to its `select`: the waiting runner is queued with the
new channel `receiveChan` and the new id `requestUUID`, and the handler suspends (`none`);
any method but GET is answered at once. -/
def requestJobEnter {σ : Type} (a : World σ) (r : Request) (receiveChan : Nat)
    (requestUUID : String) : World σ × Option ResponseWriter :=
  if r.Method = MethodGet then
    let runnerName := r.Header "X-Encodarr-Runner-Name"
    let wr : waitingRunner :=
      { Name := runnerName, CallbackChan := some receiveChan, UUID := requestUUID }
    ({ a with api := { a.api with wrQueue := a.api.wrQueue.Push wr } }, none)
  else
    (a, some (ResponseWriter.fresh.WriteHeader StatusMethodNotAllowed))

/-- `RunnerHTTPApiV1.requestJob` from the receive branch of its `select` on: `jobToSend` and
`ok` are what the receive produced, `ch` the channel after it. -/
def requestJobReceived {σ : Type} (jsonMarshal : Job → Option String)
    (inferMIMETypeFromExt : String → String) (osOpen : String → Option OpenFile)
    (a : World σ) (jobToSend : Job) (ok : Bool) (ch : Chan) :
    Outcome (World σ × Chan × ResponseWriter) :=
  let w := ResponseWriter.fresh
  match ch.close with
  | .error msg => .panicked msg
  | .ok ch =>
    if !ok then
      .returned (a, ch, w.WriteHeader StatusInternalServerError)
    else
      match jsonMarshal jobToSend with
      | none => .returned (a, ch, w.WriteHeader StatusInternalServerError)
      | some jobJSONBytes =>
        let w := w.Set "X-Encodarr-Job-Info" jobJSONBytes
        let w := w.Set "Content-Type" (inferMIMETypeFromExt (filepathExt jobToSend.Path))
        match osOpen jobToSend.Path with
        | none => .returned (a, ch, w.WriteHeader StatusInternalServerError)
        | some file => .returned (a, ch, streamFile w file.reads file.readError)

/-- `RunnerHTTPApiV1.requestJob` from its `select` on, in the world `a` the handler wakes up
in.  `ch` is the state of `receiveChan` and `ctxDone` whether the request context is done;
when both cases are ready `pickDone` tells which one the run time picks. -/
def requestJobSelect {σ : Type} (jsonMarshal : Job → Option String)
    (inferMIMETypeFromExt : String → String) (osOpen : String → Option OpenFile)
    (a : World σ) (requestUUID : String) (ch : Chan) (ctxDone pickDone : Bool) :
    Outcome (World σ × Chan × ResponseWriter) :=
  let gone : Outcome (World σ × Chan × ResponseWriter) :=
    .returned ({ a with api := { a.api with wrQueue := a.api.wrQueue.Remove requestUUID } }, ch,
      ResponseWriter.fresh.WriteHeader StatusGone)
  match ch.recv, ctxDone with
  | none, false => .blocked
  | none, true => gone
  | some (jobToSend, ok, ch1), false =>
    requestJobReceived jsonMarshal inferMIMETypeFromExt osOpen a jobToSend ok ch1
  | some (jobToSend, ok, ch1), true =>
    if pickDone then gone
    else requestJobReceived jsonMarshal inferMIMETypeFromExt osOpen a jobToSend ok ch1

/-- `RunnerHTTPApiV1.requestJob`.  While the handler is suspended in its `select` the other
goroutines turn the shared state into `suspended a1`; `ch`, `ctxDone` and `pickDone` are as
in `requestJobSelect`. -/
def requestJob {σ : Type} (jsonMarshal : Job → Option String)
    (inferMIMETypeFromExt : String → String) (osOpen : String → Option OpenFile)
    (a : World σ) (r : Request) (receiveChan : Nat) (requestUUID : String)
    (suspended : World σ → World σ) (ch : Chan) (ctxDone pickDone : Bool) :
    Outcome (World σ × Chan × ResponseWriter) :=
  match requestJobEnter a r receiveChan requestUUID with
  | (a1, some w) => .returned (a1, ch, w)
  | (a1, none) =>
    requestJobSelect jsonMarshal inferMIMETypeFromExt osOpen (suspended a1) requestUUID ch
      ctxDone pickDone

/-! ## `controller.fileSystemCheck` -/

/-- The fields of `libraries.Library` that `fileSystemCheck` reads. -/
structure Library where
  ID : Int
  FsCheckInterval : Duration
deriving DecidableEq, Repr

/-- The package variables `fsCheckTimes` and `fsCheckComplete`: Go maps keyed by library
id, a missing key being `none`. -/
structure Scheduler where
  fsCheckTimes : Int → Option Time
  fsCheckComplete : Int → Option Bool

/-- The map assignment `m[k] = v`. -/
def mapSet {β : Type} (m : Int → Option β) (k : Int) (v : β) : Int → Option β :=
  fun i => if i = k then some v else m i

/-- The body of the loop of `fileSystemCheck` for the library `l`: the scheduler and the
libraries for which `go updateLibraryQueue` has been started, before and after. -/
def fileSystemCheckBody (now : Time) (st : Scheduler × List Library) (l : Library) :
    Scheduler × List Library :=
  let (s, started) := st
  let (t, fsCheckTimes) :=
    match s.fsCheckTimes l.ID with
    | some t => (t, s.fsCheckTimes)
    | none => ((0 : Time), mapSet s.fsCheckTimes l.ID 0)
  let (prevDone, fsCheckComplete) :=
    match s.fsCheckComplete l.ID with
    | some d => (d, s.fsCheckComplete)
    | none => (true, mapSet s.fsCheckComplete l.ID true)
  if now - t > l.FsCheckInterval && prevDone then
    ({ fsCheckTimes := mapSet fsCheckTimes l.ID now
       fsCheckComplete := mapSet fsCheckComplete l.ID false },
     started ++ [l])
  else
    ({ fsCheckTimes := fsCheckTimes, fsCheckComplete := fsCheckComplete }, started)

/-- `fileSystemCheck`, one tick at the instant `now`.  `allLibraries` is what
`libraries.All()` returns (`none` on an error).  The result is the scheduler afterwards and
the libraries whose scan was started, in order. -/
def fileSystemCheck (allLibraries : Option (List Library)) (now : Time) (s : Scheduler) :
    Scheduler × List Library :=
  match allLibraries with
  | none => (s, [])
  | some allLibraries => allLibraries.foldl (fileSystemCheckBody now) (s, [])

/-- The `lastCheckStarted` of a library: the recorded time, the epoch when none is. -/
def lastCheckStarted (s : Scheduler) (l : Library) : Time := (s.fsCheckTimes l.ID).getD 0

/-- The `inFlight` flag of a library: the previous scan has not completed; `false` when
nothing is recorded. -/
def inFlight (s : Scheduler) (l : Library) : Bool := !(s.fsCheckComplete l.ID).getD true

/-- The initial values of the package variables: both maps are empty. -/
def Scheduler.initial : Scheduler :=
  { fsCheckTimes := fun _ => none, fsCheckComplete := fun _ => none }

/-! ## `controller.JobRequests` -/

/-- The struct `JobRequest`.  `ReturnChannel` is a pointer to a channel: the identity of the
channel, `none` for the nil pointer. -/
structure JobRequest where
  RunnerName : String
  ReturnChannel : Option Nat
deriving DecidableEq, Repr

/-- The Go zero value `JobRequest{}`. -/
def JobRequest.zero : JobRequest := { RunnerName := "", ReturnChannel := none }

/-- The first `select` of the loop of `jobRequestHandler`: a request `c` waiting on
`requestChan` is appended to the package variable `JobRequests`; with none waiting the
`default` case leaves the slice alone. -/
def jobRequestHandlerReceive (JobRequests : List JobRequest) (requestChan : Option JobRequest) :
    List JobRequest :=
  match requestChan with
  | some c => JobRequests ++ [c]
  | none => JobRequests

/-- `popJobRequest`, on the package variable `JobRequests`: the returned request, the
returned error (`none` for `nil`) and `JobRequests` afterwards.  The first slot is
overwritten with the zero value before the slice is cut, as in the source. -/
def popJobRequest (JobRequests : List JobRequest) :
    JobRequest × Option String × List JobRequest :=
  if JobRequests.length = 0 then
    (JobRequest.zero, some "jobRequests is empty", JobRequests)
  else
    let item := JobRequests.headD JobRequest.zero
    let JobRequests := JobRequests.set 0 JobRequest.zero
    let JobRequests := JobRequests.drop 1
    (item, none, JobRequests)

/-- Up to `n` successive calls of `popJobRequest`, stopping at the first error: the
requests returned, in the order of the calls, and `JobRequests` afterwards. -/
def popJobRequests : Nat → List JobRequest → List JobRequest × List JobRequest
  | 0, JobRequests => ([], JobRequests)
  | n + 1, JobRequests =>
    match popJobRequest JobRequests with
    | (_, some _, rest) => ([], rest)
    | (item, none, rest) => ((popJobRequests n rest).1.cons item, (popJobRequests n rest).2)

/-! ## A list-backed data store

An implementation of `RunnerCommunicatorDataStorer` on which the handlers can be run. -/

/-- A store that keeps its dispatched jobs in a list; while `readOnly` is set every save
fails. -/
structure MemStore where
  rows : List DispatchedJob
  readOnly : Bool
deriving DecidableEq, Repr

/-- The interface methods of `MemStore`: lookup by UUID, save as insert-or-replace. -/
def MemStore.methods : RunnerCommunicatorDataStorer MemStore where
  DispatchedJob s uuid := s.rows.find? (fun d => d.UUID == uuid)
  SaveDispatchedJob s d :=
    if s.readOnly then (s, some "attempt to write a readonly database")
    else ({ s with rows := s.rows.filter (fun e => e.UUID != d.UUID) ++ [d] }, none)

/-- A decoder given by the finite table of the texts it accepts. -/
def Unmarshal.ofTable {α : Type} (table : List (String × α)) : Unmarshal α where
  decode s := if s = "" then none else table.lookup s
  decode_empty := by simp

/-- An HTTP request with the given method, body, history-entry header and uploaded file. -/
def mkRequest (method : String) (body : Option String) (historyEntry : String)
    (file : Option (String × Bytes)) : Request :=
  { Method := method
    Header := fun k => if k = "X-Encodarr-History-Entry" then historyEntry else ""
    Body := body
    FormFile := fun k => if k = "file" then file else none
    RemoteAddr := "10.0.0.7:4242" }

/-- A dispatched job `u1` held by runner `R1`, last updated at instant `10`. -/
def sampleDispatched : DispatchedJob :=
  { UUID := "u1"
    Runner := "R1"
    Job := { UUID := "u1", Path := "/a.mkv", Command := [] }
    Status := JobStatus.zero
    LastUpdated := 10 }

/-- A world whose store holds `sampleDispatched`, with the given nullified UUIDs. -/
def sampleWorld (readOnly : Bool) (nullified : List UUID) : World MemStore :=
  { api :=
      { ds := { rows := [sampleDispatched], readOnly := readOnly }
        nullifiedUUIDs := nullified
        completedJobs := []
        wrQueue := newQueue }
    created := [] }

/-! ## Theorems -/

/-- The append loop of `Checker.Run` started from an accumulator `acc` yields `acc`
followed by the UUIDs of the stale jobs, in order. -/
theorem Run_loop_eq (T : Duration) (now : Time) (djs : List DispatchedJob) (acc : List UUID) :
    djs.foldl
      (fun uuidsToNull v =>
        if now - v.LastUpdated ≥ T then uuidsToNull ++ [v.UUID] else uuidsToNull) acc
      = acc ++ (djs.filter (fun D => decide (now - D.LastUpdated ≥ T))).map (fun D => D.UUID) := by
  induction djs generalizing acc with
  | nil => simp
  | cons d ds ih =>
    simp only [List.foldl_cons, List.filter_cons]
    by_cases h : now - d.LastUpdated ≥ T
    · simp [h, ih]
    · simp [h, ih]

/-- C2: for every checker, interval, timeout, instant `now` and list of dispatched jobs
returned by the store: when `now - lastCheckTime < HealthCheckInterval`, `Run` returns the
empty list and the checker unchanged; otherwise it sets `lastCheckTime` to `now` and returns
exactly the UUIDs of the jobs `D` with `now - D.LastUpdated ≥ HealthCheckTimeout`, in store
order. -/
theorem Checker_Run_spec (c : Checker) (I T : Duration) (djs : List DispatchedJob) (now : Time) :
    Checker.Run c I T djs now =
      if now - c.lastCheckTime < I then (c, [])
      else ({ lastCheckTime := now },
            (djs.filter (fun D => decide (now - D.LastUpdated ≥ T))).map (fun D => D.UUID)) := by
  unfold Checker.Run
  by_cases h : now - c.lastCheckTime < I
  · have h2 : ¬ (now - c.lastCheckTime ≥ I) := not_le.mpr h
    simp [h, h2]
  · have h2 : now - c.lastCheckTime ≥ I := not_lt.mp h
    simp only [h, h2, if_true, if_false]
    rw [Run_loop_eq]
    simp

/-- The nullified-UUID loop reaches its `return` exactly for the members of the slice. -/
theorem nullifiedLoop_eq_true_iff (l : List UUID) (uuid : UUID) :
    nullifiedLoop l uuid = true ↔ uuid ∈ l := by
  induction l with
  | nil => simp [nullifiedLoop]
  | cons v rest ih =>
    by_cases h : v = uuid
    · simp [nullifiedLoop, h]
    · have h2 : ¬ uuid = v := fun e => h e.symm
      simp [nullifiedLoop, h, h2, ih]

/-- The loop does not reach its `return` for a UUID outside the slice. -/
theorem nullifiedLoop_eq_false_iff (l : List UUID) (uuid : UUID) :
    nullifiedLoop l uuid = false ↔ uuid ∉ l := by
  rw [← nullifiedLoop_eq_true_iff]
  cases nullifiedLoop l uuid <;> simp

/-- C1: for every world and every POST request to the status endpoint whose body decodes to
a UUID of `nullifiedUUIDs`, and to the completion endpoint whose history-entry header
decodes to such a UUID, `jobStatus` and `jobComplete` answer 409 and leave the world as it
was: the data store, the created files and the completion stream are unchanged.  The
answer of `jobComplete` does not wait for a drain of the completion channel. -/
theorem nullified_conflict {σ : Type} (DS : RunnerCommunicatorDataStorer σ)
    (uS : Unmarshal incomingJobStatus) (uC : Unmarshal CompletedJob)
    (osCreate : String → Bool) (drained : Bool) (now : Time) (a : World σ) (r : Request)
    (hPost : r.Method = MethodPost) :
    (∀ b ijs, r.Body = some b → uS.decode b = some ijs → ijs.UUID ∈ a.api.nullifiedUUIDs →
      (jobStatus DS uS now a r).1 = a ∧
      (jobStatus DS uS now a r).2.code = StatusConflict) ∧
    (∀ cJob, uC.decode (r.Header "X-Encodarr-History-Entry") = some cJob →
      cJob.UUID ∈ a.api.nullifiedUUIDs →
      (jobComplete uC osCreate drained a r).1 = a ∧
      (jobComplete uC osCreate drained a r).2.map ResponseWriter.code = some StatusConflict) := by
  constructor
  · intro b ijs hb hd hm
    have hl := (nullifiedLoop_eq_true_iff _ _).mpr hm
    simp [jobStatus, hPost, hb, hd, hl, ResponseWriter.code, ResponseWriter.WriteHeader,
      ResponseWriter.fresh]
  · intro cJob hd hm
    have hl := (nullifiedLoop_eq_true_iff _ _).mpr hm
    have hne : r.Header "X-Encodarr-History-Entry" ≠ "" := by
      intro he
      rw [he, uC.decode_empty] at hd
      exact Option.noConfusion hd
    simp [jobComplete, hPost, hd, hl, hne, ResponseWriter.code, ResponseWriter.WriteHeader,
      ResponseWriter.fresh]

/-- C1, at a concrete input: `u1` is nullified, a status update and a completion for `u1`
are answered 409 and the world is untouched. -/
theorem nullified_conflict_witness :
    ((jobStatus MemStore.methods
        (Unmarshal.ofTable [("status-u1", { UUID := "u1", Status := JobStatus.zero })])
        100 (sampleWorld false ["u0", "u1"])
        (mkRequest MethodPost (some "status-u1") "entry-u1" none)).1
        = sampleWorld false ["u0", "u1"] ∧
     (jobStatus MemStore.methods
        (Unmarshal.ofTable [("status-u1", { UUID := "u1", Status := JobStatus.zero })])
        100 (sampleWorld false ["u0", "u1"])
        (mkRequest MethodPost (some "status-u1") "entry-u1" none)).2.code = StatusConflict) ∧
    ((jobComplete
        (Unmarshal.ofTable
          [("entry-u1", { UUID := "u1", Failed := false, History := "h", InFile := "" })])
        (fun _ => true) false (sampleWorld false ["u0", "u1"])
        (mkRequest MethodPost (some "status-u1") "entry-u1" none)).1
        = sampleWorld false ["u0", "u1"] ∧
     (jobComplete
        (Unmarshal.ofTable
          [("entry-u1", { UUID := "u1", Failed := false, History := "h", InFile := "" })])
        (fun _ => true) false (sampleWorld false ["u0", "u1"])
        (mkRequest MethodPost (some "status-u1") "entry-u1" none)).2.map ResponseWriter.code
        = some StatusConflict) :=
  have h := nullified_conflict MemStore.methods
    (Unmarshal.ofTable [("status-u1", { UUID := "u1", Status := JobStatus.zero })])
    (Unmarshal.ofTable
      [("entry-u1", { UUID := "u1", Failed := false, History := "h", InFile := "" })])
    (fun _ => true) false 100 (sampleWorld false ["u0", "u1"])
    (mkRequest MethodPost (some "status-u1") "entry-u1" none) rfl
  ⟨h.1 "status-u1" { UUID := "u1", Status := JobStatus.zero } rfl (by decide) (by decide),
   h.2 { UUID := "u1", Failed := false, History := "h", InFile := "" } (by decide) (by decide)⟩

/-- C3, as stated, fails when the store refuses the save: the store holds a dispatched job
for `u1`, `u1` is not nullified and the update is well formed, yet the answer is 500, not
200, and the stored record is the old one. -/
theorem jobStatus_save_failure_counterexample :
    MemStore.methods.DispatchedJob (sampleWorld true []).api.ds "u1" = some sampleDispatched ∧
    "u1" ∉ (sampleWorld true []).api.nullifiedUUIDs ∧
    (jobStatus MemStore.methods
      (Unmarshal.ofTable
        [("status-u1", { UUID := "u1", Status := { JobStatus.zero with Stage := "Encoding" } })])
      100 (sampleWorld true [])
      (mkRequest MethodPost (some "status-u1") "" none)).2.code = StatusInternalServerError ∧
    (jobStatus MemStore.methods
      (Unmarshal.ofTable
        [("status-u1", { UUID := "u1", Status := { JobStatus.zero with Stage := "Encoding" } })])
      100 (sampleWorld true [])
      (mkRequest MethodPost (some "status-u1") "" none)).1.api.ds.rows = [sampleDispatched] := by
  decide

/-- C3 (amended): for every POST status update whose body decodes to `{UUID, Status}` with
`UUID` not nullified: when the store returns a dispatched job `D`, `jobStatus` calls
`SaveDispatchedJob` with the record that has the `UUID`, `Runner` and `Job` of `D`, the
incoming `Status` and `LastUpdated = now`, leaves the store as that call leaves it, and
answers 200 when the call reports no error and 500 when it reports one; when the store
returns no dispatched job, `jobStatus` answers 500 and leaves the world as it was. -/
theorem jobStatus_update {σ : Type} (DS : RunnerCommunicatorDataStorer σ)
    (uS : Unmarshal incomingJobStatus) (now : Time) (a : World σ) (r : Request)
    (b : String) (ijs : incomingJobStatus)
    (hPost : r.Method = MethodPost) (hBody : r.Body = some b)
    (hDecode : uS.decode b = some ijs) (hLive : ijs.UUID ∉ a.api.nullifiedUUIDs) :
    (∀ D, DS.DispatchedJob a.api.ds ijs.UUID = some D →
      (jobStatus DS uS now a r).1 =
        { a with api := { a.api with ds :=
          (DS.SaveDispatchedJob a.api.ds
            { UUID := D.UUID, Runner := D.Runner, Job := D.Job,
              Status := ijs.Status, LastUpdated := now }).1 } } ∧
      (jobStatus DS uS now a r).2.code =
        if (DS.SaveDispatchedJob a.api.ds
            { UUID := D.UUID, Runner := D.Runner, Job := D.Job,
              Status := ijs.Status, LastUpdated := now }).2 = none
        then StatusOK else StatusInternalServerError) ∧
    (DS.DispatchedJob a.api.ds ijs.UUID = none →
      (jobStatus DS uS now a r).1 = a ∧
      (jobStatus DS uS now a r).2.code = StatusInternalServerError) := by
  have hl := (nullifiedLoop_eq_false_iff _ _).mpr hLive
  constructor
  · intro D hD
    simp only [jobStatus, hPost, hBody, hDecode, hl, hD, if_true]
    rcases hS : DS.SaveDispatchedJob a.api.ds
        { UUID := D.UUID, Runner := D.Runner, Job := D.Job,
          Status := ijs.Status, LastUpdated := now } with ⟨ds, err⟩
    cases err <;>
      simp [ResponseWriter.code, ResponseWriter.WriteHeader, ResponseWriter.fresh]
  · intro hD
    simp [jobStatus, hPost, hBody, hDecode, hl, hD, ResponseWriter.code,
      ResponseWriter.WriteHeader, ResponseWriter.fresh]

/-- C3 (amended), at a concrete input: a writable store holding `u1`, an update to stage
`Encoding` at instant `100`. -/
theorem jobStatus_update_witness :
    (jobStatus MemStore.methods
      (Unmarshal.ofTable
        [("status-u1", { UUID := "u1", Status := { JobStatus.zero with Stage := "Encoding" } })])
      100 (sampleWorld false [])
      (mkRequest MethodPost (some "status-u1") "" none)).1.api.ds.rows
      = [{ sampleDispatched with
            Status := { JobStatus.zero with Stage := "Encoding" }, LastUpdated := 100 }] ∧
    (jobStatus MemStore.methods
      (Unmarshal.ofTable
        [("status-u1", { UUID := "u1", Status := { JobStatus.zero with Stage := "Encoding" } })])
      100 (sampleWorld false [])
      (mkRequest MethodPost (some "status-u1") "" none)).2.code = StatusOK :=
  have h := (jobStatus_update MemStore.methods
    (Unmarshal.ofTable
      [("status-u1", { UUID := "u1", Status := { JobStatus.zero with Stage := "Encoding" } })])
    100 (sampleWorld false []) (mkRequest MethodPost (some "status-u1") "" none)
    "status-u1" { UUID := "u1", Status := { JobStatus.zero with Stage := "Encoding" } }
    rfl rfl (by decide) (by decide)).1 sampleDispatched (by decide)
  ⟨by rw [h.1]; decide, by rw [h.2]; decide⟩

/-- C4, as stated, fails: a failed completion for the dispatched, non-nullified `u1` is
received by the drain and answered 200 while the store still holds the dispatched job for
`u1`. -/
theorem jobComplete_keeps_dispatched_counterexample :
    (jobComplete
      (Unmarshal.ofTable
        [("entry-u1", { UUID := "u1", Failed := true, History := "h", InFile := "" })])
      (fun _ => true) true (sampleWorld false [])
      (mkRequest MethodPost none "entry-u1" none)).2.map ResponseWriter.code = some StatusOK ∧
    MemStore.methods.DispatchedJob
      (jobComplete
        (Unmarshal.ofTable
          [("entry-u1", { UUID := "u1", Failed := true, History := "h", InFile := "" })])
        (fun _ => true) true (sampleWorld false [])
        (mkRequest MethodPost none "entry-u1" none)).1.api.ds "u1" = some sampleDispatched := by
  decide

/-- `jobComplete` never touches the data store. -/
theorem jobComplete_ds {σ : Type} (uC : Unmarshal CompletedJob) (osCreate : String → Bool)
    (drained : Bool) (a : World σ) (r : Request) :
    (jobComplete uC osCreate drained a r).1.api.ds = a.api.ds := by
  unfold jobComplete
  simp only
  repeat' split
  all_goals rfl

/-- C4 (amended): for every completion request that `jobComplete` answers with 200, the data
store is exactly as it was before the request: `jobComplete` performs no store operation,
so a dispatched job the store held for a UUID is still held when the response is sent. -/
theorem jobComplete_store_unchanged {σ : Type} (DS : RunnerCommunicatorDataStorer σ)
    (uC : Unmarshal CompletedJob) (osCreate : String → Bool) (drained : Bool)
    (a : World σ) (r : Request)
    (_hOK : (jobComplete uC osCreate drained a r).2.map ResponseWriter.code = some StatusOK) :
    (jobComplete uC osCreate drained a r).1.api.ds = a.api.ds ∧
    ∀ uuid, DS.DispatchedJob (jobComplete uC osCreate drained a r).1.api.ds uuid
      = DS.DispatchedJob a.api.ds uuid := by
  have h := jobComplete_ds uC osCreate drained a r
  exact ⟨h, fun uuid => by rw [h]⟩

/-- C4 (amended), at a concrete input: a successful completion with an uploaded file. -/
theorem jobComplete_store_unchanged_witness :
    (jobComplete
      (Unmarshal.ofTable
        [("entry-u1", { UUID := "u1", Failed := false, History := "h", InFile := "" })])
      (fun _ => true) true (sampleWorld false [])
      (mkRequest MethodPost none "entry-u1" (some ("out.mkv", [1, 2, 3])))).1.api.ds
      = (sampleWorld false []).api.ds ∧
    ∀ uuid, MemStore.methods.DispatchedJob
      (jobComplete
        (Unmarshal.ofTable
          [("entry-u1", { UUID := "u1", Failed := false, History := "h", InFile := "" })])
        (fun _ => true) true (sampleWorld false [])
        (mkRequest MethodPost none "entry-u1" (some ("out.mkv", [1, 2, 3])))).1.api.ds uuid
      = MemStore.methods.DispatchedJob (sampleWorld false []).api.ds uuid :=
  jobComplete_store_unchanged MemStore.methods
    (Unmarshal.ofTable
      [("entry-u1", { UUID := "u1", Failed := false, History := "h", InFile := "" })])
    (fun _ => true) true (sampleWorld false [])
    (mkRequest MethodPost none "entry-u1" (some ("out.mkv", [1, 2, 3]))) (by decide)

/-- C5: what `jobComplete` does with bad history metadata on a POST.  A missing or empty
header is answered 400; a header that is not empty and does not decode is answered 500, not
400.  In both cases the world, the completion stream included, is left as it was, and the
answer does not wait for a drain of the completion channel. -/
theorem jobComplete_bad_history {σ : Type} (uC : Unmarshal CompletedJob)
    (osCreate : String → Bool) (drained : Bool) (a : World σ) (r : Request)
    (hPost : r.Method = MethodPost) :
    (r.Header "X-Encodarr-History-Entry" = "" →
      (jobComplete uC osCreate drained a r).1 = a ∧
      (jobComplete uC osCreate drained a r).2.map ResponseWriter.code
        = some StatusBadRequest) ∧
    (r.Header "X-Encodarr-History-Entry" ≠ "" →
      uC.decode (r.Header "X-Encodarr-History-Entry") = none →
      (jobComplete uC osCreate drained a r).1 = a ∧
      (jobComplete uC osCreate drained a r).2.map ResponseWriter.code
        = some StatusInternalServerError) := by
  constructor
  · intro he
    simp [jobComplete, hPost, he, ResponseWriter.code, ResponseWriter.WriteHeader,
      ResponseWriter.fresh]
  · intro hne hd
    simp [jobComplete, hPost, hne, hd, ResponseWriter.code, ResponseWriter.WriteHeader,
      ResponseWriter.fresh]

/-- C5, at the failing input: a history entry that is not JSON is answered 500. -/
theorem jobComplete_bad_history_witness :
    (jobComplete (Unmarshal.ofTable []) (fun _ => true) true (sampleWorld false [])
      (mkRequest MethodPost none "not json" none)).1 = sampleWorld false [] ∧
    (jobComplete (Unmarshal.ofTable []) (fun _ => true) true (sampleWorld false [])
      (mkRequest MethodPost none "not json" none)).2.map ResponseWriter.code
      = some StatusInternalServerError :=
  (jobComplete_bad_history (Unmarshal.ofTable []) (fun _ => true) true (sampleWorld false [])
    (mkRequest MethodPost none "not json" none) rfl).2 (by decide) (by decide)

/-- C7, as stated, fails: a failed completion for the non-nullified `u1`, whose history entry
decodes with an empty `InFile`, arrives while nothing drains the completion channel.  The
handler stays blocked in its send: no response, so no 200, is written and no completed job
has been handed over. -/
theorem jobComplete_failed_undrained_counterexample :
    (jobComplete
      (Unmarshal.ofTable
        [("entry-u1", { UUID := "u1", Failed := true, History := "h", InFile := "" })])
      (fun _ => true) false (sampleWorld false [])
      (mkRequest MethodPost none "entry-u1" none)).2 = none ∧
    (jobComplete
      (Unmarshal.ofTable
        [("entry-u1", { UUID := "u1", Failed := true, History := "h", InFile := "" })])
      (fun _ => true) false (sampleWorld false [])
      (mkRequest MethodPost none "entry-u1" none)).1.api.completedJobs = [] := by
  decide

/-- C7 (amended): for every POST completion whose history entry decodes to a job `cJob` with
a non-nullified UUID and `Failed = true`, where decoding leaves `InFile` empty whatever the
entry carries: `jobComplete` creates no file; once `CompletedJobs()` receives the job from
the completion channel, exactly one completed job has been handed over, with the UUID and
history of `cJob`, `Failed = true` and `InFile` the empty string, and the answer is 200;
as long as nothing drains the channel the handler stays blocked in the send, no job is
handed over, no response is written and the world is as it was. -/
theorem jobComplete_failed {σ : Type} (uC : Unmarshal CompletedJob) (osCreate : String → Bool)
    (a : World σ) (r : Request) (cJob : CompletedJob)
    (hPost : r.Method = MethodPost)
    (hDecode : uC.decode (r.Header "X-Encodarr-History-Entry") = some cJob)
    (hLive : cJob.UUID ∉ a.api.nullifiedUUIDs) (hFailed : cJob.Failed = true)
    (hInFile : leavesInFileEmpty uC) :
    ((jobComplete uC osCreate true a r).1.created = a.created ∧
     (jobComplete uC osCreate true a r).1.api.completedJobs = a.api.completedJobs ++
        [{ UUID := cJob.UUID, Failed := true, History := cJob.History, InFile := "" }] ∧
     (jobComplete uC osCreate true a r).1.api.ds = a.api.ds ∧
     (jobComplete uC osCreate true a r).1.api.nullifiedUUIDs = a.api.nullifiedUUIDs ∧
     (jobComplete uC osCreate true a r).1.api.wrQueue = a.api.wrQueue ∧
     (jobComplete uC osCreate true a r).2.map ResponseWriter.code = some StatusOK) ∧
    ((jobComplete uC osCreate false a r).1 = a ∧
     (jobComplete uC osCreate false a r).2 = none) := by
  have hIn : cJob.InFile = "" := hInFile _ _ hDecode
  have hne : r.Header "X-Encodarr-History-Entry" ≠ "" := by
    intro he
    rw [he, uC.decode_empty] at hDecode
    exact Option.noConfusion hDecode
  obtain ⟨uuid, failed, history, inFile⟩ := cJob
  dsimp only at hFailed hIn hLive
  subst hFailed hIn
  have hl := (nullifiedLoop_eq_false_iff _ _).mpr hLive
  constructor <;>
    simp [jobComplete, hPost, hDecode, hl, hne, ResponseWriter.code,
      ResponseWriter.WriteHeader, ResponseWriter.fresh]

/-- C7 (amended), at a concrete input: a failed completion for `u1`, drained and not
drained. -/
theorem jobComplete_failed_witness :
    ((jobComplete
      (Unmarshal.ofTable
        [("entry-u1", { UUID := "u1", Failed := true, History := "h", InFile := "" })])
      (fun _ => true) true (sampleWorld false ["u0"])
      (mkRequest MethodPost none "entry-u1" none)).1.created = [] ∧
     (jobComplete
      (Unmarshal.ofTable
        [("entry-u1", { UUID := "u1", Failed := true, History := "h", InFile := "" })])
      (fun _ => true) true (sampleWorld false ["u0"])
      (mkRequest MethodPost none "entry-u1" none)).1.api.completedJobs
      = [{ UUID := "u1", Failed := true, History := "h", InFile := "" }] ∧
     (jobComplete
      (Unmarshal.ofTable
        [("entry-u1", { UUID := "u1", Failed := true, History := "h", InFile := "" })])
      (fun _ => true) true (sampleWorld false ["u0"])
      (mkRequest MethodPost none "entry-u1" none)).2.map ResponseWriter.code
      = some StatusOK) ∧
    (jobComplete
      (Unmarshal.ofTable
        [("entry-u1", { UUID := "u1", Failed := true, History := "h", InFile := "" })])
      (fun _ => true) false (sampleWorld false ["u0"])
      (mkRequest MethodPost none "entry-u1" none)).2 = none :=
  have h := jobComplete_failed
    (Unmarshal.ofTable
      [("entry-u1", { UUID := "u1", Failed := true, History := "h", InFile := "" })])
    (fun _ => true) (sampleWorld false ["u0"]) (mkRequest MethodPost none "entry-u1" none)
    { UUID := "u1", Failed := true, History := "h", InFile := "" }
    rfl (by decide) (by decide) rfl
    (by
      intro h cJob hd
      simp only [Unmarshal.ofTable] at hd
      split at hd
      · exact Option.noConfusion hd
      · simp only [List.lookup] at hd
        split at hd
        · cases hd
          rfl
        · exact Option.noConfusion hd)
  ⟨⟨h.1.1, h.1.2.1, h.1.2.2.2.2.2⟩, h.2.2⟩

/-- C6: what `requestJob` does when its callback channel is closed without a value.  For
every GET request suspended in the `select`, once the receive case is taken (the request
context is not done, or it is done and the run time picks the receive), the receive yields
`ok = false`, the handler then runs `close(receiveChan)` on the closed channel and panics;
the answer 500 of the `!ok` branch is never written. -/
theorem requestJob_closed_callback {σ : Type} (jsonMarshal : Job → Option String)
    (inferMIMETypeFromExt : String → String) (osOpen : String → Option OpenFile)
    (a : World σ) (r : Request) (receiveChan : Nat) (requestUUID : String)
    (suspended : World σ → World σ) (pickDone : Bool) :
    requestJob jsonMarshal inferMIMETypeFromExt osOpen a { r with Method := MethodGet }
      receiveChan requestUUID suspended Chan.closed false pickDone
      = Outcome.panicked "close of closed channel" ∧
    requestJob jsonMarshal inferMIMETypeFromExt osOpen a { r with Method := MethodGet }
      receiveChan requestUUID suspended Chan.closed true false
      = Outcome.panicked "close of closed channel" := by
  constructor <;>
    simp [requestJob, requestJobEnter, requestJobSelect, requestJobReceived, Chan.recv,
      Chan.close]

/-- C8, as stated, fails: after `NullifyUUIDs ["u1"]` the store still holds the dispatched
job for `u1`. -/
theorem NullifyUUIDs_store_counterexample :
    "u1" ∈ (NullifyUUIDs (sampleWorld false []).api ["u1"]).nullifiedUUIDs ∧
    MemStore.methods.DispatchedJob (NullifyUUIDs (sampleWorld false []).api ["u1"]).ds "u1"
      = some sampleDispatched := by
  decide

/-- C8 (amended): for every communicator and every list `uuids`, after `NullifyUUIDs uuids`
every UUID of `uuids` is a member of `nullifiedUUIDs`, every UUID that was a member before
still is, and the data store, like every other field, is exactly as it was. -/
theorem NullifyUUIDs_spec {σ : Type} (r : RunnerHTTPApiV1 σ) (uuids : List UUID) :
    (∀ u, u ∈ uuids → u ∈ (NullifyUUIDs r uuids).nullifiedUUIDs) ∧
    (∀ u, u ∈ r.nullifiedUUIDs → u ∈ (NullifyUUIDs r uuids).nullifiedUUIDs) ∧
    (NullifyUUIDs r uuids).ds = r.ds ∧
    (NullifyUUIDs r uuids).completedJobs = r.completedJobs ∧
    (NullifyUUIDs r uuids).wrQueue = r.wrQueue := by
  refine ⟨?_, ?_, rfl, rfl, rfl⟩
  · intro u hu
    simp [NullifyUUIDs, hu]
  · intro u hu
    simp [NullifyUUIDs, hu]

/-- C10: what `NewJob` saves.  For every job `J` and every queue whose oldest waiting runner
is `W`, `NewJob` pops `W`, calls `SaveDispatchedJob` with `UUID = J.UUID`, `Runner = W.Name`,
`Job = J`, `LastUpdated = now` and the zero `Status` (every status field the empty string,
which is not the status `Copying to Runner` / `0` / `N/A`), and sends `J` on the callback
channel of `W`. -/
theorem NewJob_saves_zero_status {σ : Type} (DS : RunnerCommunicatorDataStorer σ) (now : Time)
    (r : RunnerHTTPApiV1 σ) (W : waitingRunner) (rest : List waitingRunner) (J : Job) :
    NewJob DS now { r with wrQueue := { items := W :: rest } } J =
      ({ r with
          wrQueue := { items := rest }
          ds := (DS.SaveDispatchedJob r.ds
            { UUID := J.UUID, Runner := W.Name, Job := J,
              Status := { Stage := "", Percentage := "", JobElapsedTime := "", FPS := "",
                          StageElapsedTime := "", StageEstimatedTimeRemaining := "" },
              LastUpdated := now }).1 },
       (W.CallbackChan, J)) ∧
    ({ Stage := "", Percentage := "", JobElapsedTime := "", FPS := "",
       StageElapsedTime := "", StageEstimatedTimeRemaining := "" } : JobStatus) ≠
    { Stage := "Copying to Runner", Percentage := "0", JobElapsedTime := "N/A", FPS := "N/A",
      StageElapsedTime := "N/A", StageEstimatedTimeRemaining := "N/A" } := by
  constructor
  · simp [NewJob, queue.Pop, JobStatus.zero]
  · decide

/-- One loop body of `fileSystemCheck` leaves the records of every other library id alone
and starts at most the scan of its own library. -/
theorem fileSystemCheckBody_other (now : Time) (s : Scheduler) (started : List Library)
    (l : Library) (k : Int) (hk : l.ID ≠ k) :
    (fileSystemCheckBody now (s, started) l).1.fsCheckTimes k = s.fsCheckTimes k ∧
    (fileSystemCheckBody now (s, started) l).1.fsCheckComplete k = s.fsCheckComplete k ∧
    ((fileSystemCheckBody now (s, started) l).2 = started ∨
     (fileSystemCheckBody now (s, started) l).2 = started ++ [l]) := by
  have hk2 : ¬ k = l.ID := fun e => hk e.symm
  unfold fileSystemCheckBody
  cases ht : s.fsCheckTimes l.ID <;> cases hc : s.fsCheckComplete l.ID <;>
    simp only [ht, hc] <;> split_ifs <;> simp [mapSet, hk2]

/-- Loop bodies for libraries with other ids keep the records of `L` and do not start a
scan of `L`. -/
theorem fileSystemCheck_fold_other (now : Time) (L : Library) (libs : List Library)
    (h : ∀ l ∈ libs, l.ID ≠ L.ID) (st : Scheduler × List Library) :
    (libs.foldl (fileSystemCheckBody now) st).1.fsCheckTimes L.ID = st.1.fsCheckTimes L.ID ∧
    (libs.foldl (fileSystemCheckBody now) st).1.fsCheckComplete L.ID
      = st.1.fsCheckComplete L.ID ∧
    (L ∈ (libs.foldl (fileSystemCheckBody now) st).2 ↔ L ∈ st.2) := by
  induction libs generalizing st with
  | nil => simp
  | cons l ls ih =>
    have hl : l.ID ≠ L.ID := h l (List.mem_cons_self _ _)
    have hls : ∀ x ∈ ls, x.ID ≠ L.ID := fun x hx => h x (List.mem_cons_of_mem _ hx)
    obtain ⟨s, started⟩ := st
    obtain ⟨h1, h2, h3⟩ := fileSystemCheckBody_other now s started l L.ID hl
    obtain ⟨i1, i2, i3⟩ := ih hls (fileSystemCheckBody now (s, started) l)
    simp only [List.foldl_cons]
    refine ⟨i1.trans h1, i2.trans h2, i3.trans ?_⟩
    have hne : L ≠ l := fun e => hl (by rw [e])
    rcases h3 with h3 | h3 <;> rw [h3]
    simp [hne]

/-- The loop body for `L` itself. -/
theorem fileSystemCheckBody_self (now : Time) (s : Scheduler) (started : List Library)
    (L : Library) :
    if inFlight s L = false ∧ now - lastCheckStarted s L > L.FsCheckInterval then
      (fileSystemCheckBody now (s, started) L).2 = started ++ [L] ∧
      lastCheckStarted (fileSystemCheckBody now (s, started) L).1 L = now ∧
      inFlight (fileSystemCheckBody now (s, started) L).1 L = true
    else
      (fileSystemCheckBody now (s, started) L).2 = started ∧
      lastCheckStarted (fileSystemCheckBody now (s, started) L).1 L = lastCheckStarted s L ∧
      inFlight (fileSystemCheckBody now (s, started) L).1 L = inFlight s L := by
  unfold fileSystemCheckBody inFlight lastCheckStarted
  rcases ht : s.fsCheckTimes L.ID with _ | t <;>
    rcases hc : s.fsCheckComplete L.ID with _ | _ | _ <;>
    simp only [ht, hc, Option.getD] <;>
    split_ifs <;> simp_all [mapSet] <;> linarith

/-- C9, as stated, fails at the boundary: for a library with interval `5` that was never
checked and is not in flight, at `now = 5` the difference equals the interval, yet the tick
starts no scan and records nothing new for it. -/
theorem fileSystemCheck_boundary_counterexample :
    inFlight Scheduler.initial { ID := 1, FsCheckInterval := 5 } = false ∧
    (5 : Time) - lastCheckStarted Scheduler.initial { ID := 1, FsCheckInterval := 5 }
      ≥ (5 : Duration) ∧
    (fileSystemCheck (some [{ ID := 1, FsCheckInterval := 5 }]) 5 Scheduler.initial).2 = [] ∧
    lastCheckStarted
      (fileSystemCheck (some [{ ID := 1, FsCheckInterval := 5 }]) 5 Scheduler.initial).1
      { ID := 1, FsCheckInterval := 5 } = 0 ∧
    inFlight
      (fileSystemCheck (some [{ ID := 1, FsCheckInterval := 5 }]) 5 Scheduler.initial).1
      { ID := 1, FsCheckInterval := 5 } = false := by
  decide

/-- C9 (amended): for every list of libraries with pairwise distinct ids returned by
`libraries.All()`, every library `L` of it, every scheduler state (a missing
`lastCheckStarted` read as the epoch, a missing `inFlight` as false) and every instant
`now`, one tick of `fileSystemCheck` starts a scan of `L`, setting `lastCheckStarted[L] = now`
and `inFlight[L] = true`, if and only if `inFlight[L]` is false and
`now - lastCheckStarted[L] > L.FsCheckInterval` strictly; otherwise, also when the
difference equals the interval, no scan of `L` is started and its `lastCheckStarted` and
`inFlight` are unchanged. -/
theorem fileSystemCheck_tick (libs : List Library) (now : Time) (s : Scheduler) (L : Library)
    (hL : L ∈ libs) (hIds : (libs.map (fun l => l.ID)).Nodup) :
    (L ∈ (fileSystemCheck (some libs) now s).2 ↔
      (inFlight s L = false ∧ now - lastCheckStarted s L > L.FsCheckInterval)) ∧
    ((inFlight s L = false ∧ now - lastCheckStarted s L > L.FsCheckInterval) →
      lastCheckStarted (fileSystemCheck (some libs) now s).1 L = now ∧
      inFlight (fileSystemCheck (some libs) now s).1 L = true) ∧
    (¬ (inFlight s L = false ∧ now - lastCheckStarted s L > L.FsCheckInterval) →
      lastCheckStarted (fileSystemCheck (some libs) now s).1 L = lastCheckStarted s L ∧
      inFlight (fileSystemCheck (some libs) now s).1 L = inFlight s L) := by
  obtain ⟨pre, post, rfl⟩ := List.append_of_mem hL
  have hnd := hIds
  simp only [List.map_append, List.map_cons] at hnd
  have hpre : ∀ l ∈ pre, l.ID ≠ L.ID := by
    intro l hl e
    have hdj := (List.nodup_append.mp hnd).2.2
    exact hdj (List.mem_map_of_mem (fun l => l.ID) hl) (by rw [e]; exact List.mem_cons_self _ _)
  have hpost : ∀ l ∈ post, l.ID ≠ L.ID := by
    intro l hl e
    have hc := (List.nodup_cons.mp (List.nodup_append.mp hnd).2.1).1
    exact hc (by rw [← e]; exact List.mem_map_of_mem (fun l => l.ID) hl)
  obtain ⟨p1, p2, p3⟩ := fileSystemCheck_fold_other now L pre hpre (s, [])
  obtain ⟨q1, q2, q3⟩ := fileSystemCheck_fold_other now L post hpost
    (fileSystemCheckBody now (pre.foldl (fileSystemCheckBody now) (s, [])) L)
  have hb := fileSystemCheckBody_self now (pre.foldl (fileSystemCheckBody now) (s, [])).1
    (pre.foldl (fileSystemCheckBody now) (s, [])).2 L
  have hin : inFlight (pre.foldl (fileSystemCheckBody now) (s, [])).1 L = inFlight s L := by
    simp only [inFlight]
    rw [p2]
  have hlast : lastCheckStarted (pre.foldl (fileSystemCheckBody now) (s, [])).1 L
      = lastCheckStarted s L := by
    simp only [lastCheckStarted]
    rw [p1]
  have hnot : L ∉ (pre.foldl (fileSystemCheckBody now) (s, [])).2 := by
    rw [p3]
    simp
  rw [hin, hlast] at hb
  simp only [fileSystemCheck, List.foldl_append, List.foldl_cons]
  have ein : ∀ t : Scheduler, t.fsCheckComplete L.ID =
      (fileSystemCheckBody now (pre.foldl (fileSystemCheckBody now) (s, [])) L).1.fsCheckComplete
        L.ID →
      inFlight t L =
        inFlight (fileSystemCheckBody now (pre.foldl (fileSystemCheckBody now) (s, [])) L).1 L := by
    intro t ht
    simp only [inFlight]
    rw [ht]
  have elast : ∀ t : Scheduler, t.fsCheckTimes L.ID =
      (fileSystemCheckBody now (pre.foldl (fileSystemCheckBody now) (s, [])) L).1.fsCheckTimes
        L.ID →
      lastCheckStarted t L = lastCheckStarted
        (fileSystemCheckBody now (pre.foldl (fileSystemCheckBody now) (s, [])) L).1 L := by
    intro t ht
    simp only [lastCheckStarted]
    rw [ht]
  rw [q3, ein _ q2, elast _ q1]
  by_cases hc : inFlight s L = false ∧ now - lastCheckStarted s L > L.FsCheckInterval
  · rw [if_pos hc] at hb
    obtain ⟨b1, b2, b3⟩ := hb
    refine ⟨?_, fun _ => ⟨b2, b3⟩, fun h => absurd hc h⟩
    rw [b1]
    simp [hc]
  · rw [if_neg hc] at hb
    obtain ⟨b1, b2, b3⟩ := hb
    refine ⟨?_, fun h => absurd h hc, fun _ => ⟨b2, b3⟩⟩
    rw [b1]
    constructor
    · intro h
      exact absurd h hnot
    · intro h
      exact absurd h hc

/-- C9 (amended), at a concrete input: two libraries, the first due and the second checked
too recently. -/
theorem fileSystemCheck_tick_witness :
    (({ ID := 1, FsCheckInterval := 5 } : Library) ∈
        (fileSystemCheck
          (some [{ ID := 1, FsCheckInterval := 5 }, { ID := 2, FsCheckInterval := 50 }])
          6 Scheduler.initial).2 ↔
      (inFlight Scheduler.initial { ID := 1, FsCheckInterval := 5 } = false ∧
        (6 : Time) - lastCheckStarted Scheduler.initial { ID := 1, FsCheckInterval := 5 }
          > (5 : Duration))) ∧
    lastCheckStarted
      (fileSystemCheck
        (some [{ ID := 1, FsCheckInterval := 5 }, { ID := 2, FsCheckInterval := 50 }])
        6 Scheduler.initial).1 { ID := 1, FsCheckInterval := 5 } = 6 ∧
    inFlight
      (fileSystemCheck
        (some [{ ID := 1, FsCheckInterval := 5 }, { ID := 2, FsCheckInterval := 50 }])
        6 Scheduler.initial).1 { ID := 1, FsCheckInterval := 5 } = true :=
  have h := fileSystemCheck_tick
    [{ ID := 1, FsCheckInterval := 5 }, { ID := 2, FsCheckInterval := 50 }] 6
    Scheduler.initial { ID := 1, FsCheckInterval := 5 } (by decide) (by decide)
  ⟨h.1, h.2.1 (by decide)⟩

/-- The success path of `jobComplete`: for a POST whose history entry decodes to a
non-nullified job that did not fail, with an uploaded file that `os.Create` accepts, the
file `<UUID>.import<ext>` is written with the uploaded bytes; once the completion channel
is drained one completed job carrying that name as `InFile` has been handed over and the
answer is 200. -/
theorem jobComplete_success {σ : Type} (uC : Unmarshal CompletedJob) (osCreate : String → Bool)
    (a : World σ) (r : Request) (cJob : CompletedJob) (filename : String) (content : Bytes)
    (hPost : r.Method = MethodPost)
    (hDecode : uC.decode (r.Header "X-Encodarr-History-Entry") = some cJob)
    (hLive : cJob.UUID ∉ a.api.nullifiedUUIDs) (hFailed : cJob.Failed = false)
    (hFile : r.FormFile "file" = some (filename, content))
    (hCreate : osCreate (cJob.UUID ++ ".import" ++ filepathExt filename) = true) :
    (jobComplete uC osCreate true a r).1.created
      = writeFile a.created (cJob.UUID ++ ".import" ++ filepathExt filename) content ∧
    (jobComplete uC osCreate true a r).1.api.completedJobs
      = a.api.completedJobs ++
          [{ cJob with InFile := cJob.UUID ++ ".import" ++ filepathExt filename }] ∧
    (jobComplete uC osCreate true a r).2.map ResponseWriter.code = some StatusOK := by
  have hl := (nullifiedLoop_eq_false_iff _ _).mpr hLive
  have hne : r.Header "X-Encodarr-History-Entry" ≠ "" := by
    intro he
    rw [he, uC.decode_empty] at hDecode
    exact Option.noConfusion hDecode
  simp [jobComplete, hPost, hDecode, hl, hne, hFailed, hFile, hCreate, ResponseWriter.code,
    ResponseWriter.WriteHeader, ResponseWriter.fresh]

/-- The happy path of the scenario suite: the upload `out.mkv` for `u1` is stored as
`u1.import.mkv` and drained as a completed job with that `InFile`. -/
theorem jobComplete_success_example :
    (jobComplete
      (Unmarshal.ofTable
        [("entry-u1", { UUID := "u1", Failed := false, History := "h", InFile := "" })])
      (fun _ => true) true (sampleWorld false [])
      (mkRequest MethodPost none "entry-u1" (some ("out.mkv", [1, 2, 3])))).1.created
      = [("u1.import.mkv", [1, 2, 3])] ∧
    (jobComplete
      (Unmarshal.ofTable
        [("entry-u1", { UUID := "u1", Failed := false, History := "h", InFile := "" })])
      (fun _ => true) true (sampleWorld false [])
      (mkRequest MethodPost none "entry-u1" (some ("out.mkv", [1, 2, 3])))).1.api.completedJobs
      = [{ UUID := "u1", Failed := false, History := "h", InFile := "u1.import.mkv" }] := by
  decide

/-- The dispatch of the scenario suite, end to end: runner `R1` asks for a job, `NewJob`
hands over `u1` while the handler is suspended, and the handler closes the callback channel
once, sets both headers and streams the file chunks. -/
theorem requestJob_delivered_example :
    requestJob (fun j => some j.UUID) (fun _ => "video/x-matroska")
      (fun _ => some { reads := [[1, 2], [3]], readError := false })
      { api := NewRunnerHTTPApiV1 { rows := [], readOnly := false }, created := [] }
      { mkRequest MethodGet none "" none with
          Header := fun k => if k = "X-Encodarr-Runner-Name" then "R1" else "" }
      0 "req-1"
      (fun w => { w with api := (NewJob MemStore.methods 50 w.api
          { UUID := "u1", Path := "/a.mkv", Command := [] }).1 })
      (Chan.sending { UUID := "u1", Path := "/a.mkv", Command := [] }) false false
      = Outcome.returned
          ({ api :=
              { ds := { rows := [{ UUID := "u1", Runner := "R1",
                                   Job := { UUID := "u1", Path := "/a.mkv", Command := [] },
                                   Status := JobStatus.zero, LastUpdated := 50 }],
                        readOnly := false }
                nullifiedUUIDs := []
                completedJobs := []
                wrQueue := { items := [] } }
             created := [] },
           Chan.closed,
           { header := [("X-Encodarr-Job-Info", "u1"), ("Content-Type", "video/x-matroska")]
             status := some 200
             body := [1, 2, 3] }) := by
  rfl

/-- `popJobRequest` on a non-empty slice returns its first request and leaves the rest. -/
theorem popJobRequest_cons (r0 : JobRequest) (rest : List JobRequest) :
    popJobRequest (r0 :: rest) = (r0, none, rest) := by
  simp [popJobRequest]

/-- Popping as many times as the slice is long returns its requests in slice order and
empties it. -/
theorem popJobRequests_length (js : List JobRequest) :
    popJobRequests js.length js = (js, []) := by
  induction js with
  | nil => rfl
  | cons r0 rest ih => simp [popJobRequests, popJobRequest_cons, ih]

/-- C11: waiting job requests are served first-in first-out.  For every non-empty
`JobRequests` slice `r0, r1, ..., rn`, `popJobRequest` returns `r0` without error and leaves
`r1, ..., rn` in the same order; on the empty slice it returns an error and leaves the slice
empty.  Hence, whatever the slice held, after `R1` and then `R2` are appended to its end,
successive pops return the earlier requests in order, then `R1`, then `R2`, and empty the
slice. -/
theorem popJobRequest_fifo :
    (∀ (r0 : JobRequest) (rest : List JobRequest),
      popJobRequest (r0 :: rest) = (r0, none, rest)) ∧
    ((popJobRequest []).2.1 ≠ none ∧ (popJobRequest []).2.2 = []) ∧
    (∀ (js : List JobRequest) (R1 R2 : JobRequest),
      popJobRequests (js.length + 2)
        (jobRequestHandlerReceive (jobRequestHandlerReceive js (some R1)) (some R2))
        = (js ++ [R1, R2], []) ∧
      popJobRequest (jobRequestHandlerReceive (jobRequestHandlerReceive [] (some R1)) (some R2))
        = (R1, none, [R2]) ∧
      popJobRequest [R2] = (R2, none, [])) := by
  refine ⟨popJobRequest_cons, ⟨by simp [popJobRequest], by simp [popJobRequest]⟩, ?_⟩
  intro js R1 R2
  refine ⟨?_, by simp [jobRequestHandlerReceive, popJobRequest], by simp [popJobRequest]⟩
  have h := popJobRequests_length (js ++ [R1, R2])
  simp only [List.length_append, List.length_cons, List.length_nil] at h
  simpa [jobRequestHandlerReceive] using h

end Encodarr
